import Mathlib

/-
Verification of the schema-contract engine of the participant-inventory
repository: the schema registry loader (src/core/schema_registry.py), the
file standardizer (src/core/file_ingest.py) and the bulk importer
(src/core/bulk_import.py), shallowly embedded over parsed inputs.

Python dicts are modelled as insertion-ordered association lists
(`List (String × _)` with first-match lookup and replace-or-append update),
Python sets as insertion-ordered duplicate-free lists, and pandas data
frames as a column-name list plus rows of string cells.  File-system I/O
(existence checks, parsing bytes) is outside the embedding: loaders take
the parsed structures directly, and the standardizer takes the frame a
successful read would produce.
-/

set_option autoImplicit false

namespace PIV

/-- Python str.strip() on the character-list model (ASCII whitespace). -/
def strTrim (s : String) : String :=
  ⟨((s.data.dropWhile Char.isWhitespace).reverse.dropWhile Char.isWhitespace).reverse⟩

/-- Python str.lower() on the character-list model. -/
def strToLower (s : String) : String := ⟨s.data.map Char.toLower⟩

/-- Python str.upper() on the character-list model. -/
def strToUpper (s : String) : String := ⟨s.data.map Char.toUpper⟩

/-- Lexicographic comparison of character lists by code point. -/
def charListLe : List Char → List Char → Bool
  | [], _ => true
  | _ :: _, [] => false
  | a :: as, b :: bs =>
    if a.toNat < b.toNat then true
    else if b.toNat < a.toNat then false
    else charListLe as bs

/-- Lexicographic string comparison, the order Python sorted(...) uses. -/
def strLe (a b : String) : Bool := charListLe a.data b.data

/-- Association-list lookup mirroring Python dict access: the value at the
first matching key, if any. -/
def alistGet? {α : Type} (m : List (String × α)) (k : String) : Option α :=
  match m with
  | [] => none
  | (k1, v) :: rest => if k1 = k then some v else alistGet? rest k

/-- Association-list update mirroring Python dict assignment: replace the
value at the first matching key in place, or append a new entry. -/
def dictInsert {α : Type} (m : List (String × α)) (k : String) (v : α) : List (String × α) :=
  match m with
  | [] => [(k, v)]
  | (k1, v1) :: rest => if k1 = k then (k, v) :: rest else (k1, v1) :: dictInsert rest k v

/-- Set insertion mirroring Python set.add on an insertion-ordered model. -/
def setInsert (l : List String) (a : String) : List String :=
  if a ∈ l then l else l ++ [a]

/-- Worker for first-occurrence deduplication: skip elements already seen. -/
def dedupGo (seen : List String) : List String → List String
  | [] => []
  | a :: rest => if a ∈ seen then dedupGo seen rest else a :: dedupGo (a :: seen) rest

/-- First-occurrence deduplication, the list model of Python set(...) built
by iteration. -/
def dedupKeepFirst (l : List String) : List String := dedupGo [] l

/-- Insert a string into a lexicographically sorted list. -/
def insertSorted (a : String) : List String → List String
  | [] => [a]
  | b :: rest => if strLe a b then a :: b :: rest else b :: insertSorted a rest

/-- Insertion sort on strings, the model of Python sorted(...). -/
def sortStrings : List String → List String
  | [] => []
  | a :: rest => insertSorted a (sortStrings rest)

/-- One cleaned row of variables.csv, as produced by `_load_csv`. -/
structure VarRow where
  dataset : String
  source_column : String
  variable_name : String
  is_required : String
  sql_type : String
deriving DecidableEq

/-- Per-dataset source configuration parsed from datasets.yaml. -/
structure DatasetCfg where
  kind : Option String
  sheet_name : Option String
  header_row : Option Int
  file_name : Option String
deriving DecidableEq

/-- Parsed datasets.yaml content, after `_load_yaml` and structural checks. -/
structure DatasetsYaml where
  datasets : List (String × DatasetCfg)
  participant_id_column : Option String
  id_column_aliases : List (String × List String)
deriving DecidableEq

/-- The data carried by each ValueError raised in schema_registry.py,
file_ingest.py and bulk_import.py, as structured values: each constructor
holds exactly the items the corresponding Python error message names. -/
inductive Err where
  | ambiguousMapping (dataset source_column canon1 canon2 : String)
  | missingInYaml (names : List String)
  | unknownDataset (dataset : String) (known : List String)
  | missingKind (dataset : String)
  | badKind (dataset kind : String)
  | missingSheet (dataset : String)
  | badHeaderRow (dataset : String)
  | noRows
  | missingIdColumn (canonical : String) (aliases : List String) (found : List String)
  | noMapping (dataset : String)
  | duplicateColumns (dataset : String) (dups : List String) (original : List String)
  | missingRequired (dataset : String) (missing : List String)
deriving DecidableEq

/-- The per-dataset accumulator of `_build_lookup_maps`: source map,
required-variable set and sql-type map. -/
structure DatasetMaps where
  source_map : List (String × String)
  required_set : List String
  types_map : List (String × String)
deriving DecidableEq

/-- The SchemaRegistry dataclass of schema_registry.py. -/
structure SchemaRegistry where
  datasets_yaml : DatasetsYaml
  variables_rows : List VarRow
  dataset_names : List String
  variables_dataset_names : List String
  variables_by_dataset : List (String × List VarRow)
  source_to_canonical_by_dataset : List (String × List (String × String))
  required_vars_by_dataset : List (String × List String)
  sql_types_by_dataset : List (String × List (String × String))
  participant_id_column : String
  id_aliases : List (String × List String)
deriving DecidableEq

/-- Truthiness of the is_required field: normalized, case-insensitive
membership in the truthy token set of `_build_lookup_maps`. -/
def truthyB (s : String) : Bool :=
  let v := strToLower (strTrim s)
  v == "true" || v == "1" || v == "yes" || v == "y"

/-- Effect of one variables.csv row on the per-dataset maps, as in the loop
body of `_build_lookup_maps` (after the ambiguity check has passed). -/
def applyRow (m : DatasetMaps) (r : VarRow) : DatasetMaps :=
  { source_map := dictInsert m.source_map r.source_column r.variable_name
    required_set :=
      if truthyB r.is_required then setInsert m.required_set r.variable_name
      else m.required_set
    types_map := dictInsert m.types_map r.variable_name (strToUpper (strTrim r.sql_type)) }

/-- One iteration of the row loop of `_build_lookup_maps`: raise on an
ambiguous mapping, otherwise apply the row. -/
def buildStep (dataset : String) (m : DatasetMaps) (r : VarRow) : Except Err DatasetMaps :=
  match alistGet? m.source_map r.source_column with
  | some prev =>
    if prev = r.variable_name then .ok (applyRow m r)
    else .error (.ambiguousMapping dataset r.source_column prev r.variable_name)
  | none => .ok (applyRow m r)

/-- The row loop of `_build_lookup_maps` over one dataset's rows. -/
def processRows (dataset : String) (m : DatasetMaps) : List VarRow → Except Err DatasetMaps
  | [] => .ok m
  | r :: rest =>
    match buildStep dataset m r with
    | .error e => .error e
    | .ok m1 => processRows dataset m1 rest

/-- Empty per-dataset accumulator. -/
def emptyMaps : DatasetMaps := ⟨[], [], []⟩

/-- The function `_build_lookup_maps`: per dataset, fold the rows into the
three lookup maps, failing on the first ambiguous mapping. -/
def buildLookupMaps :
    List (String × List VarRow) →
    Except Err (List (String × List (String × String)) × List (String × List String) ×
      List (String × List (String × String)))
  | [] => .ok ([], [], [])
  | (d, rs) :: rest =>
    match processRows d emptyMaps rs with
    | .error e => .error e
    | .ok m =>
      match buildLookupMaps rest with
      | .error e => .error e
      | .ok (s, req, t) =>
        .ok ((d, m.source_map) :: s, (d, m.required_set) :: req, (d, m.types_map) :: t)

/-- One iteration of `_group_by_dataset`: setdefault-and-append. -/
def groupInsert (acc : List (String × List VarRow)) (r : VarRow) : List (String × List VarRow) :=
  if acc.any (fun p => p.1 == r.dataset) then
    acc.map (fun p => if p.1 = r.dataset then (p.1, p.2 ++ [r]) else p)
  else acc ++ [(r.dataset, [r])]

/-- The function `_group_by_dataset`. -/
def groupByDataset (rows : List VarRow) : List (String × List VarRow) :=
  rows.foldl groupInsert []

/-- Dataset names defined in datasets.yaml (keys of the datasets mapping). -/
def yamlDatasetNames (y : DatasetsYaml) : List String :=
  y.datasets.map (fun p => p.1)

/-- Dataset names referenced by variables.csv but absent from datasets.yaml,
sorted: the missing_in_yaml value of `load_schema_registry`. -/
def missingInYamlList (y : DatasetsYaml) (rows : List VarRow) : List String :=
  sortStrings ((dedupKeepFirst (rows.map (fun r => r.dataset))).filter
    (fun d => !((yamlDatasetNames y).contains d)))

/-- The function `load_schema_registry`, from parsed inputs onward:
cross-check datasets, build lookup maps, resolve identifier rules, and
return the registry, or the first error. -/
def loadSchemaRegistry (y : DatasetsYaml) (rows : List VarRow) : Except Err SchemaRegistry :=
  if missingInYamlList y rows = [] then
    match buildLookupMaps (groupByDataset rows) with
    | .error e => .error e
    | .ok (s, req, t) =>
      .ok { datasets_yaml := y
            variables_rows := rows
            dataset_names := yamlDatasetNames y
            variables_dataset_names := dedupKeepFirst (rows.map (fun r => r.dataset))
            variables_by_dataset := groupByDataset rows
            source_to_canonical_by_dataset := s
            required_vars_by_dataset := req
            sql_types_by_dataset := t
            participant_id_column := y.participant_id_column.getD "participant_id"
            id_aliases := y.id_column_aliases }
  else .error (.missingInYaml (missingInYamlList y rows))

/-- A pandas DataFrame as read with dtype=str: a list of column names and
rows of string cells aligned by position. -/
structure Frame where
  cols : List String
  rows : List (List String)
deriving DecidableEq

/-- Index of the resolved identifier column (first occurrence). -/
def idColIndex (cols : List String) (canonical : String) : Nat :=
  (cols.findIdx? (fun c => c == canonical)).getD 0

/-- Trim the cell at position i of a row, the effect on one row of the
column assignment in `_standardize_participant_id`. -/
def trimCell (i : Nat) (row : List String) : List String :=
  row.set i (strTrim (row.getD i ""))

/-- Normalise the identifier column and drop rows whose identifier is blank,
returning the cleaned frame and the dropped-row count that
`_standardize_participant_id` logs. -/
def trimAndDropBlank (f : Frame) (canonical : String) : Frame × Nat :=
  let i := idColIndex f.cols canonical
  let trimmed := f.rows.map (trimCell i)
  let kept := trimmed.filter (fun row => !(row.getD i "" == ""))
  (⟨f.cols, kept⟩, f.rows.length - kept.length)

/-- Rename every column named src to dst, the effect of df.rename on the
column list. -/
def renameColumn (cols : List String) (src dst : String) : List String :=
  cols.map (fun c => if c = src then dst else c)

/-- The function `_standardize_participant_id`: prefer the canonical
identifier column, else rename the first matching alias to it, else fail;
then trim identifiers and drop blank-identifier rows. -/
def standardizeParticipantId (f : Frame) (canonical : String) (aliases : List String) :
    Except Err (Frame × Nat) :=
  if f.cols.contains canonical then .ok (trimAndDropBlank f canonical)
  else
    match aliases.find? (fun a => f.cols.contains a) with
    | none => .error (.missingIdColumn canonical aliases f.cols)
    | some a => .ok (trimAndDropBlank ⟨renameColumn f.cols a canonical, f.rows⟩ canonical)

/-- Keep predicate of `_rename_and_filter_to_canonical`: a column is kept
when it is in the mapping or is the participant-identifier column. -/
def keepPred (mapping : List (String × String)) (pid : String) (c : String) : Bool :=
  (alistGet? mapping c).isSome || c == pid

/-- Columns kept by `_rename_and_filter_to_canonical`, in original order. -/
def keepColsOf (cols : List String) (mapping : List (String × String)) (pid : String) :
    List String :=
  cols.filter (keepPred mapping pid)

/-- Restriction of one data row to the kept columns. -/
def keepRow (cols : List String) (mapping : List (String × String)) (pid : String)
    (row : List String) : List String :=
  ((cols.zip row).filter (fun p => keepPred mapping pid p.1)).map (fun p => p.2)

/-- Rename one kept column through the mapping; unmapped columns (the
identifier) keep their name. -/
def renameVia (mapping : List (String × String)) (c : String) : String :=
  (alistGet? mapping c).getD c

/-- Column names after keeping and renaming. -/
def renamedCols (f : Frame) (mapping : List (String × String)) (pid : String) : List String :=
  (keepColsOf f.cols mapping pid).map (renameVia mapping)

/-- Worker for duplicate marking: names at positions whose name already
occurred earlier, the model of pandas Index.duplicated(). -/
def dupGo (seen : List String) : List String → List String
  | [] => []
  | c :: rest => if c ∈ seen then c :: dupGo seen rest else dupGo (c :: seen) rest

/-- Names marked as duplicated (every occurrence after the first). -/
def dupMarks (l : List String) : List String := dupGo [] l

/-- The function `_rename_and_filter_to_canonical`: drop unknown columns,
rename mapped columns to canonical names, and fail when duplicates appear
after renaming, reporting the duplicates and the original column list. -/
def renameAndFilterToCanonical (f : Frame) (mapping : List (String × String))
    (dataset pid : String) : Except Err Frame :=
  let newCols := renamedCols f mapping pid
  if dupMarks newCols = [] then
    .ok ⟨newCols, f.rows.map (keepRow f.cols mapping pid)⟩
  else .error (.duplicateColumns dataset (dupMarks newCols) f.cols)

/-- Sorted list of required canonical names absent from the columns, the
missing_required value of `_validate_required_columns`. -/
def missingRequiredList (cols : List String) (required : List String) : List String :=
  sortStrings (dedupKeepFirst (required.filter (fun c => !(cols.contains c))))

/-- The function `_validate_required_columns`: fail when any required
canonical name is absent, naming all of the sorted missing names. -/
def validateRequiredColumns (f : Frame) (dataset : String) (required _expected : List String) :
    Except Err Unit :=
  if missingRequiredList f.cols required = [] then .ok ()
  else .error (.missingRequired dataset (missingRequiredList f.cols required))

/-- Source-to-canonical mapping looked up for a dataset, defaulting to the
empty mapping, as in `load_dataset_frame`. -/
def mappingOf (schema : SchemaRegistry) (dataset : String) : List (String × String) :=
  (alistGet? schema.source_to_canonical_by_dataset dataset).getD []

/-- Required-variable set of a dataset with the participant-identifier
column added, as computed in `load_dataset_frame`. -/
def requiredWithPid (schema : SchemaRegistry) (dataset : String) : List String :=
  setInsert ((alistGet? schema.required_vars_by_dataset dataset).getD [])
    schema.participant_id_column

/-- Expected canonical variables: the value set of the dataset's mapping. -/
def expectedVars (schema : SchemaRegistry) (dataset : String) : List String :=
  (mappingOf schema dataset).map (fun p => p.2)

/-- Aliases accepted for the canonical identifier column. -/
def idAliasesOf (schema : SchemaRegistry) : List String :=
  (alistGet? schema.id_aliases schema.participant_id_column).getD []

/-- Empty dataset configuration (the {} default in Python). -/
def emptyCfg : DatasetCfg := ⟨none, none, none, none⟩

/-- The function `_get_dataset_source_config`: resolve and validate kind,
sheet name and header row for a dataset. -/
def getDatasetSourceConfig (schema : SchemaRegistry) (dataset : String) :
    Except Err (String × Option String × Option Int) :=
  let cfg := (alistGet? schema.datasets_yaml.datasets dataset).getD emptyCfg
  let kind := strToLower (strTrim (cfg.kind.getD ""))
  if kind = "" then .error (.missingKind dataset)
  else if kind = "csv" then .ok (kind, none, none)
  else if kind = "xlsx" then
    match cfg.sheet_name with
    | none => .error (.missingSheet dataset)
    | some s =>
      if strTrim s = "" then .error (.missingSheet dataset)
      else
        let hr := cfg.header_row.getD 0
        if hr < 0 then .error (.badHeaderRow dataset) else .ok (kind, some s, some hr)
  else .error (.badKind dataset kind)

/-- Stages of `load_dataset_frame` before required-column validation:
dataset known, source config valid, frame non-empty, identifier
standardized, mapping non-empty, columns renamed and filtered.  The frame
argument is the parsed content of the input file. -/
def loadPrep (dataset : String) (f : Frame) (schema : SchemaRegistry) : Except Err Frame :=
  if schema.dataset_names.contains dataset then
    match getDatasetSourceConfig schema dataset with
    | .error e => .error e
    | .ok _ =>
      if f.rows = [] ∨ f.cols = [] then .error .noRows
      else
        match standardizeParticipantId f schema.participant_id_column (idAliasesOf schema) with
        | .error e => .error e
        | .ok (f1, _) =>
          if mappingOf schema dataset = [] then .error (.noMapping dataset)
          else renameAndFilterToCanonical f1 (mappingOf schema dataset) dataset
            schema.participant_id_column
  else .error (.unknownDataset dataset (sortStrings (dedupKeepFirst schema.dataset_names)))

/-- The function `load_dataset_frame`: standardize one dataset file and
validate required columns, returning the cleaned frame or the first error. -/
def loadDatasetFrame (dataset : String) (f : Frame) (schema : SchemaRegistry) :
    Except Err Frame :=
  match loadPrep dataset f schema with
  | .error e => .error e
  | .ok f2 =>
    match validateRequiredColumns f2 dataset (requiredWithPid schema dataset)
        (expectedVars schema dataset) with
    | .error e => .error e
    | .ok _ => .ok f2

/-- Configured expected file name of a dataset, treating a missing source
block or a falsy file_name as unconfigured, as in `bulk_load_datasets`. -/
def fileNameFor (schema : SchemaRegistry) (dataset : String) : Option String :=
  match alistGet? schema.datasets_yaml.datasets dataset with
  | none => none
  | some cfg =>
    match cfg.file_name with
    | none => none
    | some fn => if fn = "" then none else some fn

/-- Outcome of one dataset in the bulk loop: the loaded frame when the file
name is configured, the file is present in the directory, and
standardization succeeds; none otherwise. -/
def bulkTry (dir : List (String × Frame)) (schema : SchemaRegistry) (dataset : String) :
    Option (String × Frame) :=
  match fileNameFor schema dataset with
  | none => none
  | some fn =>
    match alistGet? dir fn with
    | none => none
    | some f =>
      match loadDatasetFrame dataset f schema with
      | .error _ => none
      | .ok df => some (dataset, df)

/-- One iteration of the bulk loop of `bulk_load_datasets`: skip on a
missing file name, a missing file, or a failed standardization; append the
cleaned frame on success. -/
def bulkStep (dir : List (String × Frame)) (schema : SchemaRegistry)
    (acc : List (String × Frame)) (dataset : String) : List (String × Frame) :=
  match fileNameFor schema dataset with
  | none => acc
  | some fn =>
    match alistGet? dir fn with
    | none => acc
    | some f =>
      match loadDatasetFrame dataset f schema with
      | .error _ => acc
      | .ok df => acc ++ [(dataset, df)]

/-- The function `bulk_load_datasets` over a directory modelled as a map
from file name to parsed content: iterate the registry's dataset names in
sorted order and collect the datasets that standardize successfully. -/
def bulkLoadDatasets (dir : List (String × Frame)) (schema : SchemaRegistry) :
    List (String × Frame) :=
  (sortStrings (dedupKeepFirst schema.dataset_names)).foldl (bulkStep dir schema) []

/-- Dataset configuration for a delimited-text source with a file name. -/
def cfgCsv (fn : String) : DatasetCfg := ⟨some "csv", none, none, some fn⟩

/-- Registry value used only as a getD default when destructuring Except. -/
def emptyRegistry : SchemaRegistry :=
  ⟨⟨[], none, []⟩, [], [], [], [], [], [], [], "participant_id", []⟩

/-- Definitions document for the round-trip scenario: one csv dataset,
canonical identifier participant_id with alias SubjID. -/
def yamlDemo : DatasetsYaml :=
  ⟨[("demo", cfgCsv "demo.csv")], some "participant_id", [("participant_id", ["SubjID"])]⟩

/-- Variables table for the round-trip scenario: SubjID to participant_id,
Age to age with age required. -/
def rowsDemo : List VarRow :=
  [⟨"demo", "SubjID", "participant_id", "false", "TEXT"⟩,
   ⟨"demo", "Age", "age", "true", "TEXT"⟩]

/-- The registry of the round-trip scenario. -/
def regDemo : SchemaRegistry := (loadSchemaRegistry yamlDemo rowsDemo).toOption.getD emptyRegistry

/-- Parsed minimal input file with header SubjID,Age and one data row. -/
def frameDemo : Frame := ⟨["SubjID", "Age"], [["S01", "34"]]⟩

/-- Parsed input file lacking the column mapped to the required age. -/
def frameNoAge : Frame := ⟨["SubjID", "Other"], [["S01", "z"]]⟩

/-- Definitions document with the single dataset X. -/
def yamlX : DatasetsYaml := ⟨[("X", cfgCsv "x.csv")], none, []⟩

/-- Variables table mapping source column A of dataset X to both foo and
bar. -/
def rowsFooBar : List VarRow :=
  [⟨"X", "A", "foo", "false", "TEXT"⟩, ⟨"X", "A", "bar", "false", "TEXT"⟩]

/-- Row mapping A to foo with sql type INT. -/
def rowInt : VarRow := ⟨"X", "A", "foo", "true", "INT"⟩

/-- Row mapping B to foo with sql type TEXT. -/
def rowText : VarRow := ⟨"X", "B", "foo", "true", "TEXT"⟩

/-- Definitions document with one dataset that has no variable rows. -/
def yamlSolo : DatasetsYaml := ⟨[("solo", cfgCsv "solo.csv")], none, []⟩

/-- The registry built from yamlSolo and an empty variables table. -/
def regSolo : SchemaRegistry := (loadSchemaRegistry yamlSolo []).toOption.getD emptyRegistry

/-- Variables table sending two distinct source columns to the same
canonical name age. -/
def rowsDup : List VarRow :=
  [⟨"demo", "AgeOld", "age", "false", "TEXT"⟩, ⟨"demo", "AgeNew", "age", "false", "TEXT"⟩]

/-- The registry of the duplicate-canonical scenario. -/
def regDup : SchemaRegistry := (loadSchemaRegistry yamlDemo rowsDup).toOption.getD emptyRegistry

/-- Parsed file containing both source spellings of age. -/
def frameBoth : Frame := ⟨["SubjID", "AgeOld", "AgeNew"], [["S01", "3", "4"]]⟩

/-- Parsed file with two rows, one of which has a blank identifier. -/
def frameBlank : Frame := ⟨["participant_id", "age"], [[" S01 ", "34"], ["  ", "99"]]⟩

/-- Definitions document for the bulk scenario with datasets A and B. -/
def yamlAB : DatasetsYaml :=
  ⟨[("A", cfgCsv "a.csv"), ("B", cfgCsv "b.csv")], some "participant_id",
    [("participant_id", ["SubjID"])]⟩

/-- Variables table for the bulk scenario: B requires score. -/
def rowsAB : List VarRow :=
  [⟨"A", "Age", "age", "false", "TEXT"⟩, ⟨"B", "Score", "score", "true", "TEXT"⟩]

/-- The registry of the bulk scenario. -/
def regAB : SchemaRegistry := (loadSchemaRegistry yamlAB rowsAB).toOption.getD emptyRegistry

/-- Directory for the bulk scenario: A's file is valid, B's file lacks the
required score column. -/
def dirAB : List (String × Frame) :=
  [("a.csv", ⟨["SubjID", "Age"], [["S01", "34"]]⟩),
   ("b.csv", ⟨["SubjID", "Other"], [["S01", "z"]]⟩)]

end PIV

deriving instance DecidableEq for Except

namespace PIV

theorem contains_iff_mem (l : List String) (a : String) : l.contains a = true ↔ a ∈ l :=
  List.elem_iff

theorem alistGet?_dictInsert {α : Type} (m : List (String × α)) (k s : String) (v : α) :
    alistGet? (dictInsert m k v) s = if k = s then some v else alistGet? m s := by
  induction m with
  | nil => simp [dictInsert, alistGet?]
  | cons p rest ih =>
    obtain ⟨k1, v1⟩ := p
    by_cases hk : k1 = k
    · subst hk
      by_cases hs : k1 = s <;> simp [dictInsert, alistGet?, hs]
    · by_cases hs : k1 = s
      · subst hs
        have hne : ¬ k1 = k := hk
        have hne2 : ¬ k = k1 := fun h => hk h.symm
        simp [dictInsert, alistGet?, hne, hne2]
      · simp [dictInsert, alistGet?, hk, hs, ih]

theorem dictInsert_same {α : Type} (m : List (String × α)) (k : String) (v : α)
    (h : alistGet? m k = some v) : dictInsert m k v = m := by
  induction m with
  | nil => simp [alistGet?] at h
  | cons p rest ih =>
    obtain ⟨k1, v1⟩ := p
    by_cases hk : k1 = k
    · subst hk
      simp [alistGet?] at h
      simp [dictInsert, h]
    · simp only [alistGet?, if_neg hk] at h
      simp [dictInsert, hk, ih h]

theorem alistGet?_mem_keys {α : Type} (m : List (String × α)) (k : String) (v : α)
    (h : alistGet? m k = some v) : k ∈ m.map Prod.fst := by
  induction m with
  | nil => simp [alistGet?] at h
  | cons p rest ih =>
    obtain ⟨k1, v1⟩ := p
    by_cases hk : k1 = k
    · simp [hk]
    · simp only [alistGet?, if_neg hk] at h
      simp [ih h]

theorem alistGet?_eq_none {α : Type} (m : List (String × α)) (k : String)
    (h : ¬ k ∈ m.map Prod.fst) : alistGet? m k = none := by
  induction m with
  | nil => rfl
  | cons p rest ih =>
    obtain ⟨k1, v1⟩ := p
    simp only [List.map_cons, List.mem_cons] at h
    push_neg at h
    have hk : ¬ k1 = k := fun hx => h.1 hx.symm
    simp [alistGet?, hk, ih h.2]

theorem mem_insertSorted (a b : String) (l : List String) :
    a ∈ insertSorted b l ↔ a = b ∨ a ∈ l := by
  induction l with
  | nil => simp [insertSorted]
  | cons c rest ih =>
    by_cases h : strLe b c
    · simp [insertSorted, h]
    · simp [insertSorted, h, ih]
      tauto

theorem mem_sortStrings (a : String) (l : List String) :
    a ∈ sortStrings l ↔ a ∈ l := by
  induction l with
  | nil => simp [sortStrings]
  | cons b rest ih =>
    simp [sortStrings, mem_insertSorted, ih]

theorem mem_dedupGo (a : String) (l : List String) : ∀ seen : List String,
    (a ∈ dedupGo seen l ↔ a ∈ l ∧ ¬ a ∈ seen) := by
  induction l with
  | nil => intro seen; simp [dedupGo]
  | cons b rest ih =>
    intro seen
    by_cases h : b ∈ seen
    · rw [show dedupGo seen (b :: rest) = dedupGo seen rest from by simp [dedupGo, h]]
      rw [ih seen]
      constructor
      · rintro ⟨ha, hs⟩; exact ⟨List.mem_cons_of_mem b ha, hs⟩
      · rintro ⟨hab, hs⟩
        rcases List.mem_cons.mp hab with rfl | ha
        · exact absurd h hs
        · exact ⟨ha, hs⟩
    · rw [show dedupGo seen (b :: rest) = b :: dedupGo (b :: seen) rest from by
        simp [dedupGo, h]]
      simp only [List.mem_cons, ih (b :: seen)]
      constructor
      · rintro (rfl | ⟨ha, hs⟩)
        · exact ⟨Or.inl rfl, h⟩
        · exact ⟨Or.inr ha, fun hseen => hs (Or.inr hseen)⟩
      · rintro ⟨rfl | ha, hs⟩
        · exact Or.inl rfl
        · by_cases hb : a = b
          · exact Or.inl hb
          · exact Or.inr ⟨ha, fun hx => hx.elim hb hs⟩

theorem mem_dedupKeepFirst (a : String) (l : List String) :
    a ∈ dedupKeepFirst l ↔ a ∈ l := by
  rw [dedupKeepFirst, mem_dedupGo]
  simp

theorem dedupGo_congr (l : List String) : ∀ s1 s2 : List String,
    (∀ x, x ∈ s1 ↔ x ∈ s2) → dedupGo s1 l = dedupGo s2 l := by
  induction l with
  | nil => intro s1 s2 _; rfl
  | cons b rest ih =>
    intro s1 s2 h
    by_cases hb : b ∈ s1
    · have hb2 : b ∈ s2 := (h b).mp hb
      simp [dedupGo, hb, hb2, ih s1 s2 h]
    · have hb2 : ¬ b ∈ s2 := fun hx => hb ((h b).mpr hx)
      simp only [dedupGo, if_pos, if_neg hb, if_neg hb2]
      rw [ih (b :: s1) (b :: s2) (fun x => by simp [List.mem_cons, h x])]

theorem dedupGo_skip (a : String) (l2 : List String) : ∀ (l1 seen : List String),
    a ∈ seen ∨ a ∈ l1 → dedupGo seen (l1 ++ a :: l2) = dedupGo seen (l1 ++ l2) := by
  intro l1
  induction l1 with
  | nil =>
    intro seen h
    rcases h with h | h
    · simp [dedupGo, h]
    · simp at h
  | cons b rest ih =>
    intro seen h
    by_cases hb : b ∈ seen
    · simp only [List.cons_append, dedupGo, if_pos hb]
      apply ih
      rcases h with h | h
      · exact Or.inl h
      · rcases List.mem_cons.mp h with rfl | h
        · exact Or.inl hb
        · exact Or.inr h
    · simp only [List.cons_append, dedupGo, if_neg hb]
      congr 1
      apply ih
      rcases h with h | h
      · exact Or.inl (List.mem_cons_of_mem b h)
      · rcases List.mem_cons.mp h with rfl | h
        · exact Or.inl (List.mem_cons_self a seen)
        · exact Or.inr h

theorem setInsert_mem_self (l : List String) (a : String) (h : a ∈ l) :
    setInsert l a = l := by
  simp [setInsert, h]

theorem mem_setInsert (l : List String) (a b : String) :
    b ∈ setInsert l a ↔ b = a ∨ b ∈ l := by
  by_cases h : a ∈ l
  · rw [setInsert_mem_self l a h]
    constructor
    · exact Or.inr
    · rintro (rfl | hb)
      · exact h
      · exact hb
  · simp [setInsert, h]
    tauto

theorem groupFold_char (rows : List VarRow) : ∀ acc : List (String × List VarRow),
    rows.foldl groupInsert acc =
      acc.map (fun p => (p.1, p.2 ++ rows.filter (fun v => v.dataset == p.1))) ++
      (dedupGo (acc.map Prod.fst) (rows.map (fun v => v.dataset))).map
        (fun d => (d, rows.filter (fun v => v.dataset == d))) := by
  induction rows with
  | nil => intro acc; simp [dedupGo]
  | cons r rest ih =>
    intro acc
    rw [List.foldl_cons, ih (groupInsert acc r)]
    by_cases hmem : acc.any (fun p => p.1 == r.dataset) = true
    · have hkey : r.dataset ∈ acc.map Prod.fst := by
        rcases List.any_eq_true.mp hmem with ⟨p, hp, hpe⟩
        have hpd : p.1 = r.dataset := by simpa using hpe
        exact List.mem_map.mpr ⟨p, hp, hpd⟩
      have hgi : groupInsert acc r =
          acc.map (fun p => if p.1 = r.dataset then (p.1, p.2 ++ [r]) else p) := by
        simp [groupInsert, hmem]
      rw [hgi]
      have hkeys : (acc.map (fun p => if p.1 = r.dataset then (p.1, p.2 ++ [r]) else p)).map
          Prod.fst = acc.map Prod.fst := by
        rw [List.map_map]
        apply List.map_congr_left
        intro p _
        by_cases hp : p.1 = r.dataset <;> simp [hp]
      rw [hkeys]
      have hdd : dedupGo (acc.map Prod.fst) ((r :: rest).map (fun v => v.dataset)) =
          dedupGo (acc.map Prod.fst) (rest.map (fun v => v.dataset)) := by
        simp [dedupGo, hkey]
      rw [hdd]
      congr 1
      · rw [List.map_map]
        apply List.map_congr_left
        intro p _
        by_cases hp : p.1 = r.dataset
        · have hb : (r.dataset == p.1) = true := beq_iff_eq.mpr hp.symm
          simp [Function.comp, hp, List.filter_cons, hb]
        · have hb : (r.dataset == p.1) = false := beq_eq_false_iff_ne.mpr (fun h => hp h.symm)
          simp [Function.comp, hp, List.filter_cons, hb]
      · apply List.map_congr_left
        intro d hd
        have hdk : ¬ d ∈ acc.map Prod.fst := ((mem_dedupGo d _ _).mp hd).2
        have hne : ¬ r.dataset = d := fun h => hdk (h ▸ hkey)
        have hb : (r.dataset == d) = false := beq_eq_false_iff_ne.mpr hne
        simp [List.filter_cons, hb]
    · have hkey : ¬ r.dataset ∈ acc.map Prod.fst := by
        intro hx
        rcases List.mem_map.mp hx with ⟨p, hp, hpd⟩
        exact hmem (List.any_eq_true.mpr ⟨p, hp, beq_iff_eq.mpr hpd⟩)
      have hgi : groupInsert acc r = acc ++ [(r.dataset, [r])] := by
        simp [groupInsert, hmem]
      rw [hgi]
      have hdd : dedupGo (acc.map Prod.fst) ((r :: rest).map (fun v => v.dataset)) =
          r.dataset :: dedupGo (r.dataset :: acc.map Prod.fst)
            (rest.map (fun v => v.dataset)) := by
        simp [dedupGo, hkey]
      rw [hdd]
      rw [List.map_append, List.map_append]
      have hseen : dedupGo (List.map Prod.fst acc ++ List.map Prod.fst [(r.dataset, [r])])
          (rest.map (fun v => v.dataset)) =
          dedupGo (r.dataset :: acc.map Prod.fst) (rest.map (fun v => v.dataset)) := by
        apply dedupGo_congr
        intro x
        simp [List.mem_append, List.mem_cons]
        tauto
      rw [hseen]
      have hacc : acc.map (fun p => (p.1, p.2 ++ rest.filter (fun v => v.dataset == p.1))) =
          acc.map (fun p => (p.1, p.2 ++ (r :: rest).filter (fun v => v.dataset == p.1))) := by
        apply List.map_congr_left
        intro p hp
        have hpk : p.1 ∈ acc.map Prod.fst := List.mem_map.mpr ⟨p, hp, rfl⟩
        have hne : ¬ r.dataset = p.1 := fun h => hkey (h ▸ hpk)
        have hb : (r.dataset == p.1) = false := beq_eq_false_iff_ne.mpr hne
        simp [List.filter_cons, hb]
      rw [hacc]
      have hinner : (dedupGo (r.dataset :: acc.map Prod.fst)
            (rest.map (fun v => v.dataset))).map
            (fun d => (d, rest.filter (fun v => v.dataset == d))) =
          (dedupGo (r.dataset :: acc.map Prod.fst) (rest.map (fun v => v.dataset))).map
            (fun d => (d, (r :: rest).filter (fun v => v.dataset == d))) := by
        apply List.map_congr_left
        intro d hd
        have hdk : ¬ d ∈ r.dataset :: acc.map Prod.fst := ((mem_dedupGo d _ _).mp hd).2
        have hne : ¬ r.dataset = d := fun h => hdk (h ▸ List.mem_cons_self _ _)
        have hb : (r.dataset == d) = false := beq_eq_false_iff_ne.mpr hne
        simp [List.filter_cons, hb]
      rw [hinner]
      have hb : (r.dataset == r.dataset) = true := beq_iff_eq.mpr rfl
      simp [List.filter_cons, hb, List.append_assoc]

theorem groupByDataset_eq (rows : List VarRow) :
    groupByDataset rows =
      (dedupKeepFirst (rows.map (fun v => v.dataset))).map
        (fun d => (d, rows.filter (fun v => v.dataset == d))) := by
  rw [groupByDataset, groupFold_char rows []]
  simp [dedupKeepFirst]



theorem buildStep_ok_eq (dataset : String) (m m1 : DatasetMaps) (r : VarRow)
    (h : buildStep dataset m r = .ok m1) : m1 = applyRow m r := by
  unfold buildStep at h
  cases hp : alistGet? m.source_map r.source_column with
  | some prev =>
    rw [hp] at h
    dsimp only at h
    by_cases he : prev = r.variable_name
    · rw [if_pos he] at h
      injection h with h1
      exact h1.symm
    · rw [if_neg he] at h
      cases h
  | none =>
    rw [hp] at h
    dsimp only at h
    injection h with h1
    exact h1.symm

theorem buildStep_ok_prev (dataset : String) (m m1 : DatasetMaps) (r : VarRow)
    (h : buildStep dataset m r = .ok m1) (prev : String)
    (hp : alistGet? m.source_map r.source_column = some prev) : prev = r.variable_name := by
  unfold buildStep at h
  rw [hp] at h
  dsimp only at h
  by_cases he : prev = r.variable_name
  · exact he
  · rw [if_neg he] at h
    cases h

theorem buildStep_source_persist (dataset : String) (m m1 : DatasetMaps) (r : VarRow)
    (s c : String) (h : buildStep dataset m r = .ok m1)
    (hg : alistGet? m.source_map s = some c) : alistGet? m1.source_map s = some c := by
  rw [buildStep_ok_eq dataset m m1 r h]
  show alistGet? (dictInsert m.source_map r.source_column r.variable_name) s = some c
  rw [alistGet?_dictInsert]
  by_cases hs : r.source_column = s
  · rw [if_pos hs]
    rw [← hs] at hg
    have hc : c = r.variable_name := buildStep_ok_prev dataset m m1 r h c hg
    rw [hc]
  · rw [if_neg hs]
    exact hg

theorem buildStep_required_persist (dataset : String) (m m1 : DatasetMaps) (r : VarRow)
    (c : String) (h : buildStep dataset m r = .ok m1)
    (hg : c ∈ m.required_set) : c ∈ m1.required_set := by
  rw [buildStep_ok_eq dataset m m1 r h]
  show c ∈ (if truthyB r.is_required then setInsert m.required_set r.variable_name
    else m.required_set)
  by_cases ht : truthyB r.is_required
  · rw [if_pos ht, mem_setInsert]
    exact Or.inr hg
  · rw [if_neg ht]
    exact hg

theorem processRows_source_persist (dataset : String) (l : List VarRow) :
    ∀ (m m' : DatasetMaps) (s c : String), processRows dataset m l = .ok m' →
      alistGet? m.source_map s = some c → alistGet? m'.source_map s = some c := by
  induction l with
  | nil =>
    intro m m' s c h hg
    injection h with h1
    exact h1 ▸ hg
  | cons r rest ih =>
    intro m m' s c h hg
    unfold processRows at h
    cases hb : buildStep dataset m r with
    | error e => rw [hb] at h; cases h
    | ok m1 =>
      rw [hb] at h
      exact ih m1 m' s c h (buildStep_source_persist dataset m m1 r s c hb hg)

theorem processRows_required_persist (dataset : String) (l : List VarRow) :
    ∀ (m m' : DatasetMaps) (c : String), processRows dataset m l = .ok m' →
      c ∈ m.required_set → c ∈ m'.required_set := by
  induction l with
  | nil =>
    intro m m' c h hg
    injection h with h1
    exact h1 ▸ hg
  | cons r rest ih =>
    intro m m' c h hg
    unfold processRows at h
    cases hb : buildStep dataset m r with
    | error e => rw [hb] at h; cases h
    | ok m1 =>
      rw [hb] at h
      exact ih m1 m' c h (buildStep_required_persist dataset m m1 r c hb hg)

theorem processRows_mem_spec (dataset : String) (l : List VarRow) :
    ∀ (m m' : DatasetMaps) (r : VarRow), processRows dataset m l = .ok m' → r ∈ l →
      alistGet? m'.source_map r.source_column = some r.variable_name ∧
        (truthyB r.is_required = true → r.variable_name ∈ m'.required_set) := by
  induction l with
  | nil => intro m m' r _ hr; cases hr
  | cons r0 rest ih =>
    intro m m' r h hr
    unfold processRows at h
    cases hb : buildStep dataset m r0 with
    | error e => rw [hb] at h; cases h
    | ok m1 =>
      rw [hb] at h
      rcases List.mem_cons.mp hr with rfl | hmem
      · constructor
        · apply processRows_source_persist dataset rest m1 m' _ _ h
          rw [buildStep_ok_eq dataset m m1 r hb]
          show alistGet? (dictInsert m.source_map r.source_column r.variable_name) _ = _
          rw [alistGet?_dictInsert, if_pos rfl]
        · intro ht
          apply processRows_required_persist dataset rest m1 m' _ h
          rw [buildStep_ok_eq dataset m m1 r hb]
          show r.variable_name ∈ (if truthyB r.is_required then
            setInsert m.required_set r.variable_name else m.required_set)
          rw [if_pos ht, mem_setInsert]
          exact Or.inl rfl
      · exact ih m1 m' r h hmem

theorem processRows_conflict (dataset : String) (l : List VarRow) (m : DatasetMaps)
    (r1 r2 : VarRow) (h1 : r1 ∈ l) (h2 : r2 ∈ l)
    (hsrc : r1.source_column = r2.source_column)
    (hcanon : ¬ r1.variable_name = r2.variable_name) :
    ∀ m', ¬ processRows dataset m l = .ok m' := by
  intro m' h
  have a1 := (processRows_mem_spec dataset l m m' r1 h h1).1
  have a2 := (processRows_mem_spec dataset l m m' r2 h h2).1
  rw [hsrc] at a1
  rw [a1] at a2
  exact hcanon (Option.some.inj a2)

theorem processRows_ok_of_compat (dataset : String) (l : List VarRow) :
    ∀ m : DatasetMaps,
      (∀ r1 r2, r1 ∈ l → r2 ∈ l → r1.source_column = r2.source_column →
        r1.variable_name = r2.variable_name) →
      (∀ s c, alistGet? m.source_map s = some c →
        ∀ r, r ∈ l → r.source_column = s → r.variable_name = c) →
      ∃ m', processRows dataset m l = .ok m' := by
  induction l with
  | nil => intro m _ _; exact ⟨m, rfl⟩
  | cons r rest ih =>
    intro m hcompat hmap
    have hstep : buildStep dataset m r = .ok (applyRow m r) := by
      unfold buildStep
      cases hp : alistGet? m.source_map r.source_column with
      | some prev =>
        have hpe : r.variable_name = prev :=
          hmap r.source_column prev hp r (List.mem_cons_self r rest) rfl
        simp [hpe.symm]
      | none => rfl
    obtain ⟨m', hm'⟩ := ih (applyRow m r)
      (fun r1 r2 hr1 hr2 => hcompat r1 r2 (List.mem_cons_of_mem r hr1)
        (List.mem_cons_of_mem r hr2))
      (by
        intro s c hg r' hr' hsrc
        show r'.variable_name = c
        have : alistGet? (dictInsert m.source_map r.source_column r.variable_name) s =
            some c := hg
        rw [alistGet?_dictInsert] at this
        by_cases hs : r.source_column = s
        · rw [if_pos hs] at this
          have hc : r.variable_name = c := Option.some.inj this
          rw [← hc]
          exact hcompat r' r (List.mem_cons_of_mem r hr') (List.mem_cons_self r rest)
            (hsrc.trans hs.symm)
        · rw [if_neg hs] at this
          exact hmap s c this r' (List.mem_cons_of_mem r hr') hsrc)
    refine ⟨m', ?_⟩
    unfold processRows
    rw [hstep]
    exact hm'
theorem exceptMap_error_inv {A B C : Type} (f : A → B) (x : Except C A) (e : C)
    (h : x.map f = .error e) : x = .error e := by
  cases x with
  | error e2 =>
    simp [Except.map] at h
    rw [h]
  | ok a => simp [Except.map] at h

theorem exceptMap_ok_inv {A B C : Type} (f : A → B) (x : Except C A) (b : B)
    (h : x.map f = .ok b) : ∃ a, x = .ok a ∧ f a = b := by
  cases x with
  | error e2 => simp [Except.map] at h
  | ok a =>
    simp [Except.map] at h
    exact ⟨a, rfl, h⟩

theorem processRows_proj_congr (dataset : String) (l : List VarRow) :
    ∀ m1 m2 : DatasetMaps, m1.source_map = m2.source_map →
      m1.required_set = m2.required_set →
      (processRows dataset m1 l).map (fun x => (x.source_map, x.required_set)) =
        (processRows dataset m2 l).map (fun x => (x.source_map, x.required_set)) := by
  induction l with
  | nil =>
    intro m1 m2 hs hr
    simp [processRows, Except.map, hs, hr]
  | cons r rest ih =>
    intro m1 m2 hs hr
    have hget : alistGet? m1.source_map r.source_column =
        alistGet? m2.source_map r.source_column := by rw [hs]
    unfold processRows buildStep
    rw [hget]
    cases hp : alistGet? m2.source_map r.source_column with
    | some prev =>
      dsimp only
      by_cases he : prev = r.variable_name
      · simp only [if_pos he]
        apply ih
        · show dictInsert m1.source_map r.source_column r.variable_name =
            dictInsert m2.source_map r.source_column r.variable_name
          rw [hs]
        · show (if truthyB r.is_required then setInsert m1.required_set r.variable_name
              else m1.required_set) =
            (if truthyB r.is_required then setInsert m2.required_set r.variable_name
              else m2.required_set)
          rw [hr]
      · simp only [if_neg he]
    | none =>
      dsimp only
      apply ih
      · show dictInsert m1.source_map r.source_column r.variable_name =
          dictInsert m2.source_map r.source_column r.variable_name
        rw [hs]
      · show (if truthyB r.is_required then setInsert m1.required_set r.variable_name
            else m1.required_set) =
          (if truthyB r.is_required then setInsert m2.required_set r.variable_name
            else m2.required_set)
        rw [hr]

theorem processRows_append (dataset : String) (l1 l2 : List VarRow) : ∀ m : DatasetMaps,
    processRows dataset m (l1 ++ l2) =
      match processRows dataset m l1 with
      | .error e => .error e
      | .ok m1 => processRows dataset m1 l2 := by
  induction l1 with
  | nil => intro m; rfl
  | cons r rest ih =>
    intro m
    rw [List.cons_append]
    show (match buildStep dataset m r with
      | Except.error e => (Except.error e : Except Err DatasetMaps)
      | Except.ok m1 => processRows dataset m1 (rest ++ l2)) =
      (match (match buildStep dataset m r with
        | Except.error e => (Except.error e : Except Err DatasetMaps)
        | Except.ok m1 => processRows dataset m1 rest) with
      | Except.error e => (Except.error e : Except Err DatasetMaps)
      | Except.ok m1 => processRows dataset m1 l2)
    cases buildStep dataset m r with
    | error e => rfl
    | ok m1 => exact ih m1

theorem processRows_dup_proj (dataset : String) (p q : List VarRow) (r : VarRow)
    (hp : r ∈ p) (m : DatasetMaps) :
    (processRows dataset m (p ++ r :: q)).map (fun x => (x.source_map, x.required_set)) =
      (processRows dataset m (p ++ q)).map (fun x => (x.source_map, x.required_set)) := by
  rw [processRows_append dataset p (r :: q) m, processRows_append dataset p q m]
  cases hpp : processRows dataset m p with
  | error e => rfl
  | ok m1 =>
    dsimp only
    have hspec := processRows_mem_spec dataset p m m1 r hpp hp
    have hstep : buildStep dataset m1 r = .ok (applyRow m1 r) := by
      unfold buildStep
      rw [hspec.1]
      dsimp only
      rw [if_pos rfl]
    show (match buildStep dataset m1 r with
      | Except.error e => (Except.error e : Except Err DatasetMaps)
      | Except.ok mm => processRows dataset mm q).map
        (fun x : DatasetMaps => (x.source_map, x.required_set)) = _
    rw [hstep]
    dsimp only
    have hsrc : (applyRow m1 r).source_map = m1.source_map := by
      show dictInsert m1.source_map r.source_column r.variable_name = m1.source_map
      exact dictInsert_same _ _ _ hspec.1
    have hreq : (applyRow m1 r).required_set = m1.required_set := by
      show (if truthyB r.is_required then setInsert m1.required_set r.variable_name
        else m1.required_set) = m1.required_set
      by_cases ht : truthyB r.is_required
      · rw [if_pos ht]
        exact setInsert_mem_self _ _ (hspec.2 ht)
      · rw [if_neg ht]
    exact processRows_proj_congr dataset q (applyRow m1 r) m1 hsrc hreq

theorem buildLookupMaps_keys (g : List (String × List VarRow)) :
    ∀ res, buildLookupMaps g = .ok res →
      res.1.map Prod.fst = g.map Prod.fst ∧ res.2.1.map Prod.fst = g.map Prod.fst := by
  induction g with
  | nil =>
    intro res h
    injection h with h1
    rw [← h1]
    exact ⟨rfl, rfl⟩
  | cons p rest ih =>
    obtain ⟨d0, rs0⟩ := p
    intro res h
    cases hm : processRows d0 emptyMaps rs0 with
    | error e =>
      rw [show buildLookupMaps ((d0, rs0) :: rest) = .error e from by
        simp [buildLookupMaps, hm]] at h
      cases h
    | ok m =>
      cases hb : buildLookupMaps rest with
      | error e =>
        rw [show buildLookupMaps ((d0, rs0) :: rest) = .error e from by
          simp [buildLookupMaps, hm, hb]] at h
        cases h
      | ok trip =>
        obtain ⟨s1, req1, t1⟩ := trip
        rw [show buildLookupMaps ((d0, rs0) :: rest) =
            .ok ((d0, m.source_map) :: s1, (d0, m.required_set) :: req1,
              (d0, m.types_map) :: t1) from by
          simp [buildLookupMaps, hm, hb]] at h
        injection h with h1
        rw [← h1]
        have hih := ih (s1, req1, t1) hb
        constructor
        · show ((d0, m.source_map) :: s1).map Prod.fst = d0 :: rest.map Prod.fst
          rw [List.map_cons]
          rw [show s1.map Prod.fst = rest.map Prod.fst from hih.1]
        · show ((d0, m.required_set) :: req1).map Prod.fst = d0 :: rest.map Prod.fst
          rw [List.map_cons]
          rw [show req1.map Prod.fst = rest.map Prod.fst from hih.2]

theorem buildLookupMaps_ok_of_all (g : List (String × List VarRow)) :
    (∀ d rs, (d, rs) ∈ g → ∃ m, processRows d emptyMaps rs = .ok m) →
    ∃ res, buildLookupMaps g = .ok res := by
  induction g with
  | nil => intro _; exact ⟨([], [], []), rfl⟩
  | cons p rest ih =>
    obtain ⟨d0, rs0⟩ := p
    intro h
    obtain ⟨m, hm⟩ := h d0 rs0 (List.mem_cons_self _ _)
    obtain ⟨res, hres⟩ := ih (fun d rs hmem => h d rs (List.mem_cons_of_mem _ hmem))
    obtain ⟨s1, req1, t1⟩ := res
    exact ⟨((d0, m.source_map) :: s1, (d0, m.required_set) :: req1,
      (d0, m.types_map) :: t1), by simp [buildLookupMaps, hm, hres]⟩

theorem buildLookupMaps_all_ok (g : List (String × List VarRow)) :
    ∀ res, buildLookupMaps g = .ok res →
      ∀ d rs, (d, rs) ∈ g → ∃ m, processRows d emptyMaps rs = .ok m := by
  induction g with
  | nil => intro res _ d rs hmem; cases hmem
  | cons p rest ih =>
    obtain ⟨d0, rs0⟩ := p
    intro res h d rs hmem
    cases hm : processRows d0 emptyMaps rs0 with
    | error e =>
      rw [show buildLookupMaps ((d0, rs0) :: rest) = .error e from by
        simp [buildLookupMaps, hm]] at h
      cases h
    | ok m =>
      cases hb : buildLookupMaps rest with
      | error e =>
        rw [show buildLookupMaps ((d0, rs0) :: rest) = .error e from by
          simp [buildLookupMaps, hm, hb]] at h
        cases h
      | ok trip =>
        rcases List.mem_cons.mp hmem with heq | hmem2
        · injection heq with e1 e2
          subst e1
          subst e2
          exact ⟨m, hm⟩
        · exact ih trip hb d rs hmem2

theorem buildLookupMaps_proj_congr (ds : List String) (F1 F2 : String → List VarRow)
    (h : ∀ d, d ∈ ds →
      (processRows d emptyMaps (F1 d)).map (fun x => (x.source_map, x.required_set)) =
        (processRows d emptyMaps (F2 d)).map (fun x => (x.source_map, x.required_set))) :
    (buildLookupMaps (ds.map (fun d => (d, F1 d)))).map (fun t => (t.1, t.2.1)) =
      (buildLookupMaps (ds.map (fun d => (d, F2 d)))).map (fun t => (t.1, t.2.1)) := by
  induction ds with
  | nil => rfl
  | cons d rest ih =>
    have hd := h d (List.mem_cons_self d rest)
    have hrest := ih (fun d2 hd2 => h d2 (List.mem_cons_of_mem d hd2))
    rw [List.map_cons, List.map_cons]
    cases h1 : processRows d emptyMaps (F1 d) with
    | error e =>
      rw [h1] at hd
      have h2 : processRows d emptyMaps (F2 d) = .error e := by
        apply exceptMap_error_inv (fun x : DatasetMaps => (x.source_map, x.required_set))
        rw [← hd]
        rfl
      rw [show buildLookupMaps ((d, F1 d) :: rest.map (fun d2 => (d2, F1 d2))) = .error e from
        by simp [buildLookupMaps, h1]]
      rw [show buildLookupMaps ((d, F2 d) :: rest.map (fun d2 => (d2, F2 d2))) = .error e from
        by simp [buildLookupMaps, h2]]
    | ok m1 =>
      rw [h1] at hd
      obtain ⟨m2, h2, hm12⟩ := exceptMap_ok_inv
        (fun x : DatasetMaps => (x.source_map, x.required_set))
        (processRows d emptyMaps (F2 d)) (m1.source_map, m1.required_set) (by rw [← hd]; rfl)
      have hm12s : m2.source_map = m1.source_map := congrArg Prod.fst hm12
      have hm12r : m2.required_set = m1.required_set := congrArg Prod.snd hm12
      cases hb1 : buildLookupMaps (rest.map (fun d2 => (d2, F1 d2))) with
      | error e =>
        rw [hb1] at hrest
        have hb2 : buildLookupMaps (rest.map (fun d2 => (d2, F2 d2))) = .error e := by
          apply exceptMap_error_inv (fun t => (t.1, t.2.1))
          rw [← hrest]
          rfl
        rw [show buildLookupMaps ((d, F1 d) :: rest.map (fun d2 => (d2, F1 d2))) =
            .error e from by simp [buildLookupMaps, h1, hb1]]
        rw [show buildLookupMaps ((d, F2 d) :: rest.map (fun d2 => (d2, F2 d2))) =
            .error e from by simp [buildLookupMaps, h2, hb2]]
      | ok trip1 =>
        obtain ⟨s1, req1, t1⟩ := trip1
        rw [hb1] at hrest
        obtain ⟨trip2, hb2, htrip⟩ := exceptMap_ok_inv (fun t => (t.1, t.2.1))
          (buildLookupMaps (rest.map (fun d2 => (d2, F2 d2)))) (s1, req1)
          (by rw [← hrest]; rfl)
        obtain ⟨s2, req2, t2⟩ := trip2
        have hts : s2 = s1 := congrArg Prod.fst htrip
        have htr : req2 = req1 := congrArg Prod.snd htrip
        rw [show buildLookupMaps ((d, F1 d) :: rest.map (fun d2 => (d2, F1 d2))) =
            .ok ((d, m1.source_map) :: s1, (d, m1.required_set) :: req1,
              (d, m1.types_map) :: t1) from by simp [buildLookupMaps, h1, hb1]]
        rw [show buildLookupMaps ((d, F2 d) :: rest.map (fun d2 => (d2, F2 d2))) =
            .ok ((d, m2.source_map) :: s2, (d, m2.required_set) :: req2,
              (d, m2.types_map) :: t2) from by simp [buildLookupMaps, h2, hb2]]
        show Except.ok ((d, m1.source_map) :: s1, (d, m1.required_set) :: req1) =
          Except.ok ((d, m2.source_map) :: s2, (d, m2.required_set) :: req2)
        rw [hm12s, hm12r, hts, htr]

theorem loadSchemaRegistry_missing_ne (y : DatasetsYaml) (rows : List VarRow)
    (hm : ¬ missingInYamlList y rows = []) :
    loadSchemaRegistry y rows = .error (.missingInYaml (missingInYamlList y rows)) := by
  unfold loadSchemaRegistry
  rw [if_neg hm]

theorem loadSchemaRegistry_ok_inv (y : DatasetsYaml) (rows : List VarRow) (reg : SchemaRegistry)
    (h : loadSchemaRegistry y rows = .ok reg) :
    missingInYamlList y rows = [] ∧
    ∃ res, buildLookupMaps (groupByDataset rows) = .ok res ∧
      reg.source_to_canonical_by_dataset = res.1 ∧
      reg.required_vars_by_dataset = res.2.1 ∧
      reg.sql_types_by_dataset = res.2.2 ∧
      reg.dataset_names = yamlDatasetNames y ∧
      reg.participant_id_column = y.participant_id_column.getD "participant_id" := by
  unfold loadSchemaRegistry at h
  by_cases hm : missingInYamlList y rows = []
  · rw [if_pos hm] at h
    cases hb : buildLookupMaps (groupByDataset rows) with
    | error e => rw [hb] at h; cases h
    | ok res =>
      obtain ⟨s, req, t⟩ := res
      rw [hb] at h
      dsimp only at h
      injection h with h1
      rw [← h1]
      exact ⟨hm, (s, req, t), rfl, rfl, rfl, rfl, rfl, rfl⟩
  · rw [if_neg hm] at h
    cases h

theorem loadSchemaRegistry_ok_build (y : DatasetsYaml) (rows : List VarRow)
    (hm : missingInYamlList y rows = [])
    (res : List (String × List (String × String)) × List (String × List String) ×
      List (String × List (String × String)))
    (hb : buildLookupMaps (groupByDataset rows) = .ok res) :
    loadSchemaRegistry y rows = .ok
      { datasets_yaml := y
        variables_rows := rows
        dataset_names := yamlDatasetNames y
        variables_dataset_names := dedupKeepFirst (rows.map (fun v => v.dataset))
        variables_by_dataset := groupByDataset rows
        source_to_canonical_by_dataset := res.1
        required_vars_by_dataset := res.2.1
        sql_types_by_dataset := res.2.2
        participant_id_column := y.participant_id_column.getD "participant_id"
        id_aliases := y.id_column_aliases } := by
  obtain ⟨s, req, t⟩ := res
  unfold loadSchemaRegistry
  rw [if_pos hm, hb]

theorem groupByDataset_keys (rows : List VarRow) :
    (groupByDataset rows).map Prod.fst = dedupKeepFirst (rows.map (fun v => v.dataset)) := by
  rw [groupByDataset_eq, List.map_map]
  have : (Prod.fst ∘ fun d => (d, rows.filter (fun v => v.dataset == d))) = id := by
    funext d
    rfl
  rw [this, List.map_id]

theorem mem_missingInYamlList (y : DatasetsYaml) (rows : List VarRow) (d : String) :
    d ∈ missingInYamlList y rows ↔
      d ∈ rows.map (fun v => v.dataset) ∧ ¬ d ∈ yamlDatasetNames y := by
  unfold missingInYamlList
  rw [mem_sortStrings, List.mem_filter, mem_dedupKeepFirst]
  constructor
  · rintro ⟨h1, h2⟩
    refine ⟨h1, fun hm => ?_⟩
    rw [(contains_iff_mem _ _).mpr hm] at h2
    simp at h2
  · rintro ⟨h1, h2⟩
    refine ⟨h1, ?_⟩
    cases hcc : (yamlDatasetNames y).contains d with
    | false => rfl
    | true => exact absurd ((contains_iff_mem _ _).mp hcc) h2

theorem dupGo_mem_of_seen (c : String) (l : List String) : ∀ seen : List String,
    c ∈ seen → c ∈ l → c ∈ dupGo seen l := by
  induction l with
  | nil => intro seen _ hl; cases hl
  | cons b rest ih =>
    intro seen hseen hl
    by_cases hb : b ∈ seen
    · rw [show dupGo seen (b :: rest) = b :: dupGo seen rest from by simp [dupGo, hb]]
      rcases List.mem_cons.mp hl with rfl | hl2
      · exact List.mem_cons_self _ _
      · exact List.mem_cons_of_mem _ (ih seen hseen hl2)
    · rw [show dupGo seen (b :: rest) = dupGo (b :: seen) rest from by simp [dupGo, hb]]
      rcases List.mem_cons.mp hl with rfl | hl2
      · exact absurd hseen hb
      · exact ih (b :: seen) (List.mem_cons_of_mem b hseen) hl2

theorem dupGo_mem_of_count (c : String) (l : List String) : ∀ seen : List String,
    2 ≤ l.count c → c ∈ dupGo seen l := by
  induction l with
  | nil => intro seen h; simp [List.count_nil] at h
  | cons b rest ih =>
    intro seen h
    by_cases hbc : b = c
    · subst hbc
      have hcount : 1 ≤ rest.count b := by
        rw [List.count_cons_self] at h
        omega
      have hmem : b ∈ rest := List.count_pos_iff.mp hcount
      by_cases hb : b ∈ seen
      · rw [show dupGo seen (b :: rest) = b :: dupGo seen rest from by simp [dupGo, hb]]
        exact List.mem_cons_self _ _
      · rw [show dupGo seen (b :: rest) = dupGo (b :: seen) rest from by simp [dupGo, hb]]
        exact dupGo_mem_of_seen b rest (b :: seen) (List.mem_cons_self _ _) hmem
    · have hcount : 2 ≤ rest.count c := by
        rw [List.count_cons] at h
        have : (b == c) = false := beq_eq_false_iff_ne.mpr hbc
        rw [this] at h
        simpa using h
      by_cases hb : b ∈ seen
      · rw [show dupGo seen (b :: rest) = b :: dupGo seen rest from by simp [dupGo, hb]]
        exact List.mem_cons_of_mem _ (ih seen hcount)
      · rw [show dupGo seen (b :: rest) = dupGo (b :: seen) rest from by simp [dupGo, hb]]
        exact ih (b :: seen) hcount

/-- C1 counterexample: the registry built from a definitions document with
the single dataset solo and an empty variables table succeeds, has solo in
its dataset-name set, yet solo is a key of neither the source-to-canonical
map nor the required-variables map, refuting the claim that every dataset
name is present in both maps. -/
theorem c1_counterexample :
    (loadSchemaRegistry yamlSolo []).isOk = true ∧
    "solo" ∈ regSolo.dataset_names ∧
    ¬ "solo" ∈ regSolo.source_to_canonical_by_dataset.map Prod.fst ∧
    ¬ "solo" ∈ regSolo.required_vars_by_dataset.map Prod.fst := by
  refine ⟨rfl, ?_, ?_, ?_⟩ <;> decide

/-- C1 (amended): in every successfully constructed registry, every dataset
name appearing in the variables table is present as a key in both the
source-to-canonical map and the required-variables map; a dataset defined
only in the definitions document may be absent from both. -/
theorem c1_amended_variables_datasets_in_maps (y : DatasetsYaml) (rows : List VarRow)
    (reg : SchemaRegistry) (h : loadSchemaRegistry y rows = .ok reg) :
    ∀ d, d ∈ rows.map (fun v => v.dataset) →
      d ∈ reg.source_to_canonical_by_dataset.map Prod.fst ∧
      d ∈ reg.required_vars_by_dataset.map Prod.fst := by
  intro d hd
  obtain ⟨-, res, hb, hs, hreq, -, -, -⟩ := loadSchemaRegistry_ok_inv y rows reg h
  have hkeys := buildLookupMaps_keys _ res hb
  have hdm : d ∈ (groupByDataset rows).map Prod.fst := by
    rw [groupByDataset_keys, mem_dedupKeepFirst]
    exact hd
  constructor
  · rw [hs, hkeys.1]
    exact hdm
  · rw [hreq, hkeys.2]
    exact hdm

/-- C1 amended witness: in the demo registry the dataset demo is a key of
both lookup maps. -/
theorem c1_amended_witness :
    "demo" ∈ regDemo.source_to_canonical_by_dataset.map Prod.fst ∧
    "demo" ∈ regDemo.required_vars_by_dataset.map Prod.fst :=
  c1_amended_variables_datasets_in_maps yamlDemo rowsDemo regDemo (by decide) "demo" (by decide)

/-- C5: whenever a variables table holds, for the same dataset, two rows
with the same source column and different canonical names, registry
construction never returns a registry; in the particular instance of rows
mapping X.A to both foo and bar it fails with the ambiguous-mapping error
naming dataset X, source column A, and both foo and bar. -/
theorem c5_ambiguous_mapping :
    (∀ (y : DatasetsYaml) (rows : List VarRow) (r1 r2 : VarRow), r1 ∈ rows → r2 ∈ rows →
      r1.dataset = r2.dataset → r1.source_column = r2.source_column →
      ¬ r1.variable_name = r2.variable_name →
      ∀ reg, ¬ loadSchemaRegistry y rows = .ok reg) ∧
    loadSchemaRegistry yamlX rowsFooBar = .error (.ambiguousMapping "X" "A" "foo" "bar") := by
  constructor
  · intro y rows r1 r2 h1 h2 hds hsrc hcanon reg hok
    obtain ⟨-, res, hb, -, -, -, -, -⟩ := loadSchemaRegistry_ok_inv y rows reg hok
    have hdmem : r1.dataset ∈ dedupKeepFirst (rows.map (fun v => v.dataset)) :=
      (mem_dedupKeepFirst _ _).mpr (List.mem_map.mpr ⟨r1, h1, rfl⟩)
    have hgmem : (r1.dataset, rows.filter (fun v => v.dataset == r1.dataset)) ∈
        groupByDataset rows := by
      rw [groupByDataset_eq]
      exact List.mem_map.mpr ⟨r1.dataset, hdmem, rfl⟩
    obtain ⟨m, hm⟩ := buildLookupMaps_all_ok (groupByDataset rows) res hb _ _ hgmem
    have hr1f : r1 ∈ rows.filter (fun v => v.dataset == r1.dataset) :=
      List.mem_filter.mpr ⟨h1, beq_iff_eq.mpr rfl⟩
    have hr2f : r2 ∈ rows.filter (fun v => v.dataset == r1.dataset) :=
      List.mem_filter.mpr ⟨h2, beq_iff_eq.mpr hds.symm⟩
    exact processRows_conflict r1.dataset _ emptyMaps r1 r2 hr1f hr2f hsrc hcanon m hm
  · decide

/-- C5 witness: the foo and bar rows make construction fail on the concrete
table. -/
theorem c5_witness : ¬ loadSchemaRegistry yamlX rowsFooBar = .ok emptyRegistry :=
  c5_ambiguous_mapping.1 yamlX rowsFooBar ⟨"X", "A", "foo", "false", "TEXT"⟩
    ⟨"X", "A", "bar", "false", "TEXT"⟩ (by decide) (by decide) rfl rfl (by decide)
    emptyRegistry

/-- C7: when some dataset name in the variables table is absent from the
definitions document, construction fails with the schema-mismatch error
listing the sorted offending names, the error list contains every such
name, and no registry is returned. -/
theorem c7_missing_dataset_refs (y : DatasetsYaml) (rows : List VarRow) (d0 : String)
    (hd0 : d0 ∈ rows.map (fun v => v.dataset)) (hny : ¬ d0 ∈ yamlDatasetNames y) :
    loadSchemaRegistry y rows = .error (.missingInYaml (missingInYamlList y rows)) ∧
    (∀ d, d ∈ rows.map (fun v => v.dataset) → ¬ d ∈ yamlDatasetNames y →
      d ∈ missingInYamlList y rows) ∧
    (∀ reg, ¬ loadSchemaRegistry y rows = .ok reg) := by
  have hmem : d0 ∈ missingInYamlList y rows :=
    (mem_missingInYamlList y rows d0).mpr ⟨hd0, hny⟩
  have hm : ¬ missingInYamlList y rows = [] := by
    intro hx
    rw [hx] at hmem
    cases hmem
  refine ⟨loadSchemaRegistry_missing_ne y rows hm, ?_, ?_⟩
  · intro d hd hnyd
    exact (mem_missingInYamlList y rows d).mpr ⟨hd, hnyd⟩
  · intro reg hok
    rw [loadSchemaRegistry_missing_ne y rows hm] at hok
    cases hok

/-- C7 witness: a row referencing the undefined dataset Z fails construction
naming Z. -/
theorem c7_witness :
    loadSchemaRegistry yamlX [⟨"Z", "A", "foo", "false", "TEXT"⟩] =
      .error (.missingInYaml ["Z"]) ∧
    "Z" ∈ missingInYamlList yamlX [⟨"Z", "A", "foo", "false", "TEXT"⟩] := by
  have h := c7_missing_dataset_refs yamlX [⟨"Z", "A", "foo", "false", "TEXT"⟩] "Z"
    (by decide) (by decide)
  exact ⟨h.1.trans (by decide), h.2.1 "Z" (by decide) (by decide)⟩

/-- C10 counterexample: repeating the identical row rowInt around the
intervening row rowText (a different source column mapped to the same
canonical name with a different sql type) changes the sql-type map: built
from rowInt, rowText, rowInt the type of foo is INT, built from rowInt,
rowText it is TEXT, refuting exact equality of the type maps. -/
theorem c10_counterexample :
    (loadSchemaRegistry yamlX [rowInt, rowText, rowInt]).map
      (fun reg => reg.sql_types_by_dataset) = .ok [("X", [("foo", "INT")])] ∧
    (loadSchemaRegistry yamlX [rowInt, rowText]).map
      (fun reg => reg.sql_types_by_dataset) = .ok [("X", [("foo", "TEXT")])] :=
  ⟨rfl, rfl⟩

/-- C10 (amended): a variables table in which some row appears again later
(identically) yields exactly the same source-to-canonical mapping and
required-variable set as the table with the duplicate removed, and the
repetition never causes construction to fail; the sql-type map, however,
may differ when a row in between maps a different source column to the
same canonical name with a different type. -/
theorem c10_amended_idempotent (y : DatasetsYaml) (l1 l2 : List VarRow) (r : VarRow)
    (hr : r ∈ l1) :
    (loadSchemaRegistry y (l1 ++ r :: l2)).map
      (fun reg => (reg.source_to_canonical_by_dataset, reg.required_vars_by_dataset)) =
    (loadSchemaRegistry y (l1 ++ l2)).map
      (fun reg => (reg.source_to_canonical_by_dataset, reg.required_vars_by_dataset)) := by
  have hdedup : dedupKeepFirst ((l1 ++ r :: l2).map (fun v => v.dataset)) =
      dedupKeepFirst ((l1 ++ l2).map (fun v => v.dataset)) := by
    rw [dedupKeepFirst, dedupKeepFirst, List.map_append, List.map_append, List.map_cons]
    exact dedupGo_skip r.dataset _ _ [] (Or.inr (List.mem_map.mpr ⟨r, hr, rfl⟩))
  have hmiss : missingInYamlList y (l1 ++ r :: l2) = missingInYamlList y (l1 ++ l2) := by
    unfold missingInYamlList
    rw [hdedup]
  have hfilter : ∀ d : String,
      (processRows d emptyMaps ((l1 ++ r :: l2).filter (fun v => v.dataset == d))).map
        (fun x => (x.source_map, x.required_set)) =
      (processRows d emptyMaps ((l1 ++ l2).filter (fun v => v.dataset == d))).map
        (fun x => (x.source_map, x.required_set)) := by
    intro d
    rw [List.filter_append, List.filter_append, List.filter_cons]
    by_cases hd : (r.dataset == d) = true
    · rw [if_pos hd]
      exact processRows_dup_proj d _ _ r (List.mem_filter.mpr ⟨hr, hd⟩) emptyMaps
    · rw [if_neg hd]
  have hbuild : (buildLookupMaps (groupByDataset (l1 ++ r :: l2))).map
      (fun t => (t.1, t.2.1)) =
      (buildLookupMaps (groupByDataset (l1 ++ l2))).map (fun t => (t.1, t.2.1)) := by
    rw [groupByDataset_eq, groupByDataset_eq, hdedup]
    exact buildLookupMaps_proj_congr
      (dedupKeepFirst ((l1 ++ l2).map (fun v => v.dataset)))
      (fun d => (l1 ++ r :: l2).filter (fun v => v.dataset == d))
      (fun d => (l1 ++ l2).filter (fun v => v.dataset == d))
      (fun d _ => hfilter d)
  unfold loadSchemaRegistry
  rw [hmiss]
  by_cases hm : missingInYamlList y (l1 ++ l2) = []
  · rw [if_pos hm, if_pos hm]
    cases hb1 : buildLookupMaps (groupByDataset (l1 ++ r :: l2)) with
    | error e =>
      rw [hb1] at hbuild
      have hb2 : buildLookupMaps (groupByDataset (l1 ++ l2)) = .error e := by
        apply exceptMap_error_inv (fun t :
          List (String × List (String × String)) × List (String × List String) ×
            List (String × List (String × String)) => (t.1, t.2.1))
        rw [← hbuild]
        rfl
      rw [hb2]
    | ok trip1 =>
      rw [hb1] at hbuild
      obtain ⟨s1, req1, t1⟩ := trip1
      obtain ⟨trip2, hb2, htrip⟩ := exceptMap_ok_inv (fun t :
          List (String × List (String × String)) × List (String × List String) ×
            List (String × List (String × String)) => (t.1, t.2.1))
        (buildLookupMaps (groupByDataset (l1 ++ l2))) (s1, req1) hbuild.symm
      obtain ⟨s2, req2, t2⟩ := trip2
      rw [hb2]
      dsimp only
      have hs : s2 = s1 := congrArg Prod.fst htrip
      have hq : req2 = req1 := congrArg Prod.snd htrip
      rw [hs, hq]
      rfl
  · rw [if_neg hm, if_neg hm]

/-- C10 amended witness: the duplicate of rowInt leaves the source map and
required set unchanged on the concrete table. -/
theorem c10_amended_witness :
    (loadSchemaRegistry yamlX [rowInt, rowText, rowInt]).map
      (fun reg => (reg.source_to_canonical_by_dataset, reg.required_vars_by_dataset)) =
    (loadSchemaRegistry yamlX [rowInt, rowText]).map
      (fun reg => (reg.source_to_canonical_by_dataset, reg.required_vars_by_dataset)) :=
  c10_amended_idempotent yamlX [rowInt, rowText] [] rowInt (by decide)

/-- C9: load_dataset_frame never succeeds for a dataset whose
source-to-canonical mapping is empty or absent from the registry, whatever
the input frame; and a registry successfully built from a variables table
with no rows for that dataset always has an empty-or-absent mapping for
it. -/
theorem c9_empty_mapping_fails :
    (∀ (schema : SchemaRegistry) (dataset : String) (f g : Frame),
      mappingOf schema dataset = [] → ¬ loadDatasetFrame dataset f schema = .ok g) ∧
    (∀ (y : DatasetsYaml) (rows : List VarRow) (reg : SchemaRegistry) (dataset : String),
      loadSchemaRegistry y rows = .ok reg → (∀ r ∈ rows, ¬ r.dataset = dataset) →
      mappingOf reg dataset = []) := by
  constructor
  · intro schema dataset f g hmap hok
    have hprep : ∀ f2, ¬ loadPrep dataset f schema = .ok f2 := by
      intro f2 hp
      unfold loadPrep at hp
      by_cases hk : schema.dataset_names.contains dataset
      · rw [if_pos hk] at hp
        cases hc : getDatasetSourceConfig schema dataset with
        | error e => rw [hc] at hp; cases hp
        | ok cfg =>
          rw [hc] at hp
          dsimp only at hp
          by_cases hemp : f.rows = [] ∨ f.cols = []
          · rw [if_pos hemp] at hp
            cases hp
          · rw [if_neg hemp] at hp
            cases hsd : standardizeParticipantId f schema.participant_id_column
                (idAliasesOf schema) with
            | error e => rw [hsd] at hp; cases hp
            | ok pr =>
              obtain ⟨f1, n⟩ := pr
              rw [hsd] at hp
              dsimp only at hp
              rw [if_pos hmap] at hp
              cases hp
      · rw [if_neg hk] at hp
        cases hp
    unfold loadDatasetFrame at hok
    cases hpc : loadPrep dataset f schema with
    | error e => rw [hpc] at hok; cases hok
    | ok f2 => exact hprep f2 hpc
  · intro y rows reg dataset hok hnone
    obtain ⟨-, res, hb, hs, -, -, -, -⟩ := loadSchemaRegistry_ok_inv y rows reg hok
    have hnk : ¬ dataset ∈ reg.source_to_canonical_by_dataset.map Prod.fst := by
      rw [hs, (buildLookupMaps_keys _ res hb).1, groupByDataset_keys, mem_dedupKeepFirst]
      intro hx
      obtain ⟨r, hrmem, hrd⟩ := List.mem_map.mp hx
      exact hnone r hrmem hrd
    unfold mappingOf
    rw [alistGet?_eq_none _ _ hnk]
    rfl

/-- C9 witness: the solo registry has no mapping for solo, and a valid
non-empty frame with a participant_id column still never standardizes. -/
theorem c9_witness :
    mappingOf regSolo "solo" = [] ∧
    ¬ loadDatasetFrame "solo" ⟨["participant_id", "x"], [["S01", "1"]]⟩ regSolo =
      .ok ⟨["participant_id", "x"], [["S01", "1"]]⟩ := by
  have hm : mappingOf regSolo "solo" = [] :=
    c9_empty_mapping_fails.2 yamlSolo [] regSolo "solo" (by decide)
      (fun r hr => absurd hr (by simp))
  exact ⟨hm, c9_empty_mapping_fails.1 regSolo "solo" _ _ hm⟩

/-- C6: a variables table with no ambiguous source column (in particular
one where two distinct source columns map to the same canonical name)
never fails lookup-map construction; and when renaming a frame through the
mapping produces duplicate canonical columns, standardization fails with
the duplicate-columns error carrying the duplicated names (every name
occurring at least twice among the renamed columns is listed) and the
original column list. -/
theorem c6_duplicate_canonical :
    (∀ rows : List VarRow,
      (∀ r1 ∈ rows, ∀ r2 ∈ rows, r1.dataset = r2.dataset →
        r1.source_column = r2.source_column → r1.variable_name = r2.variable_name) →
      ∃ res, buildLookupMaps (groupByDataset rows) = .ok res) ∧
    (∀ (f : Frame) (mapping : List (String × String)) (dataset pid : String),
      ¬ dupMarks (renamedCols f mapping pid) = [] →
      renameAndFilterToCanonical f mapping dataset pid =
        .error (.duplicateColumns dataset (dupMarks (renamedCols f mapping pid)) f.cols) ∧
      ∀ c, 2 ≤ (renamedCols f mapping pid).count c →
        c ∈ dupMarks (renamedCols f mapping pid)) := by
  constructor
  · intro rows hcompat
    apply buildLookupMaps_ok_of_all
    intro d rs hmem
    rw [groupByDataset_eq] at hmem
    obtain ⟨d2, hd2, heq⟩ := List.mem_map.mp hmem
    injection heq with he1 he2
    subst he1
    subst he2
    apply processRows_ok_of_compat
    · intro r1 r2 h1 h2 hsrc
      have m1 := List.mem_filter.mp h1
      have m2 := List.mem_filter.mp h2
      exact hcompat r1 m1.1 r2 m2.1
        ((beq_iff_eq.mp m1.2).trans (beq_iff_eq.mp m2.2).symm) hsrc
    · intro src c hg
      exact absurd hg (by simp [emptyMaps, alistGet?])
  · intro f mapping dataset pid hdup
    constructor
    · unfold renameAndFilterToCanonical
      rw [if_neg hdup]
    · intro c hc
      exact dupGo_mem_of_count c _ [] hc

/-- C6 witness: the AgeOld and AgeNew rows build a registry successfully,
and the file containing both source spellings fails the rename step naming
the duplicate age and the original columns. -/
theorem c6_witness :
    (∃ res, buildLookupMaps (groupByDataset rowsDup) = .ok res) ∧
    renameAndFilterToCanonical frameBoth (mappingOf regDup "demo") "demo" "participant_id" =
      .error (.duplicateColumns "demo" ["age"]
        ["SubjID", "AgeOld", "AgeNew"]) := by
  constructor
  · exact c6_duplicate_canonical.1 rowsDup (by decide)
  · have h2 := (c6_duplicate_canonical.2 frameBoth (mappingOf regDup "demo") "demo"
      "participant_id" (by decide)).1
    exact h2.trans (by decide)

theorem trimAndDropBlank_spec (g : Frame) (canonical : String) (f1 : Frame) (n : Nat)
    (h : trimAndDropBlank g canonical = (f1, n)) :
    f1.cols = g.cols ∧
    f1.rows = (g.rows.map (trimCell (idColIndex g.cols canonical))).filter
      (fun row => !(row.getD (idColIndex g.cols canonical) "" == "")) ∧
    n = g.rows.length - f1.rows.length ∧
    (∀ row ∈ f1.rows, ¬ row.getD (idColIndex g.cols canonical) "" = "") ∧
    (∀ row ∈ f1.rows, ∃ row0 ∈ g.rows, row = trimCell (idColIndex g.cols canonical) row0) := by
  have hf1 : f1 = Frame.mk g.cols
      ((g.rows.map (trimCell (idColIndex g.cols canonical))).filter
        (fun row => !(row.getD (idColIndex g.cols canonical) "" == ""))) :=
    (congrArg Prod.fst h).symm
  have hn : n = g.rows.length -
      ((g.rows.map (trimCell (idColIndex g.cols canonical))).filter
        (fun row => !(row.getD (idColIndex g.cols canonical) "" == ""))).length :=
    (congrArg Prod.snd h).symm
  subst hf1
  refine ⟨rfl, rfl, hn, ?_, ?_⟩
  · intro row hrow
    have hp := (List.mem_filter.mp hrow).2
    intro hx
    rw [hx] at hp
    simp at hp
  · intro row hrow
    have hm := (List.mem_filter.mp hrow).1
    obtain ⟨row0, h0, heq⟩ := List.mem_map.mp hm
    exact ⟨row0, h0, heq.symm⟩

/-- C2: on the minimal delimited-text file with header SubjID,Age and the
single data row S01,34, under the registry built from yamlDemo and
rowsDemo (SubjID to participant_id, Age to age with age required,
canonical identifier participant_id), load_dataset_frame succeeds with
exactly the two columns participant_id and age and exactly the one row
whose identifier is S01; the registry really carries the claimed mapping,
required set and identifier column. -/
theorem c2_roundtrip :
    (loadSchemaRegistry yamlDemo rowsDemo).bind
      (fun reg => loadDatasetFrame "demo" frameDemo reg) =
      .ok ⟨["participant_id", "age"], [["S01", "34"]]⟩ ∧
    mappingOf regDemo "demo" = [("SubjID", "participant_id"), ("Age", "age")] ∧
    requiredWithPid regDemo "demo" = ["age", "participant_id"] ∧
    regDemo.participant_id_column = "participant_id" := by
  refine ⟨?_, ?_, ?_, ?_⟩ <;> decide

/-- C3: once the stages of load_dataset_frame before required-column
validation succeed with result frame f2, standardization fails if and only
if some member of the dataset's required-variable set augmented with the
participant-identifier column is absent from f2's columns; on failure the
error is the missing-required error for the dataset whose sorted list
contains exactly the missing required canonical names, and no frame is
returned. -/
theorem c3_required_validation (dataset : String) (f : Frame) (schema : SchemaRegistry)
    (f2 : Frame) (h : loadPrep dataset f schema = .ok f2) :
    loadDatasetFrame dataset f schema =
      (if missingRequiredList f2.cols (requiredWithPid schema dataset) = [] then .ok f2
       else .error (.missingRequired dataset
         (missingRequiredList f2.cols (requiredWithPid schema dataset)))) ∧
    ∀ c, c ∈ missingRequiredList f2.cols (requiredWithPid schema dataset) ↔
      (c ∈ requiredWithPid schema dataset ∧ ¬ c ∈ f2.cols) := by
  constructor
  · unfold loadDatasetFrame
    rw [h]
    dsimp only
    unfold validateRequiredColumns
    by_cases hm : missingRequiredList f2.cols (requiredWithPid schema dataset) = []
    · rw [if_pos hm, if_pos hm]
    · rw [if_neg hm, if_neg hm]
  · intro c
    unfold missingRequiredList
    rw [mem_sortStrings, mem_dedupKeepFirst, List.mem_filter]
    constructor
    · rintro ⟨h1, h2⟩
      refine ⟨h1, fun hmem => ?_⟩
      rw [(contains_iff_mem _ _).mpr hmem] at h2
      simp at h2
    · rintro ⟨h1, h2⟩
      refine ⟨h1, ?_⟩
      cases hcc : f2.cols.contains c with
      | false => rfl
      | true => exact absurd ((contains_iff_mem _ _).mp hcc) h2

/-- C3 witness: the file lacking the Age column fails standardization under
the demo registry naming exactly the missing required column age. -/
theorem c3_witness :
    loadDatasetFrame "demo" frameNoAge regDemo = .error (.missingRequired "demo" ["age"]) := by
  have h := c3_required_validation "demo" frameNoAge regDemo
    ⟨["participant_id"], [["S01"]]⟩ (by decide)
  exact h.1.trans (by decide)

/-- C8: when identifier standardization succeeds on a frame, the result is
obtained from the (possibly alias-renamed) frame g by trimming the
identifier cell of every row and keeping exactly the rows whose trimmed
identifier is non-blank; the reported count is the number of dropped rows,
every surviving row has a non-blank identifier, and every surviving row is
the cell-trimmed version of an original row. -/
theorem c8_blank_id_drop (f : Frame) (canonical : String) (aliases : List String)
    (f1 : Frame) (n : Nat)
    (h : standardizeParticipantId f canonical aliases = .ok (f1, n)) :
    ∃ g : Frame, g.rows = f.rows ∧ f1.cols = g.cols ∧
      f1.rows = (g.rows.map (trimCell (idColIndex g.cols canonical))).filter
        (fun row => !(row.getD (idColIndex g.cols canonical) "" == "")) ∧
      n = f.rows.length - f1.rows.length ∧
      (∀ row ∈ f1.rows, ¬ row.getD (idColIndex g.cols canonical) "" = "") ∧
      (∀ row ∈ f1.rows, ∃ row0 ∈ g.rows,
        row = trimCell (idColIndex g.cols canonical) row0) := by
  unfold standardizeParticipantId at h
  by_cases hcan : f.cols.contains canonical
  · rw [if_pos hcan] at h
    injection h with h1
    obtain ⟨hc, hrows, hn, hblank, htrim⟩ := trimAndDropBlank_spec f canonical f1 n h1
    exact ⟨f, rfl, hc, hrows, hn, hblank, htrim⟩
  · rw [if_neg hcan] at h
    cases hfind : aliases.find? (fun a => f.cols.contains a) with
    | none => rw [hfind] at h; cases h
    | some a =>
      rw [hfind] at h
      dsimp only at h
      injection h with h1
      obtain ⟨hc, hrows, hn, hblank, htrim⟩ :=
        trimAndDropBlank_spec ⟨renameColumn f.cols a canonical, f.rows⟩ canonical f1 n h1
      exact ⟨⟨renameColumn f.cols a canonical, f.rows⟩, rfl, hc, hrows, hn, hblank, htrim⟩

/-- C8 witness: the two-row file with one blank identifier standardizes to
exactly one row with a dropped count of 1. -/
theorem c8_witness :
    standardizeParticipantId frameBlank "participant_id" [] =
      .ok (⟨["participant_id", "age"], [["S01", "34"]]⟩, 1) ∧
    1 = frameBlank.rows.length -
      (Frame.mk ["participant_id", "age"] [["S01", "34"]]).rows.length := by
  refine ⟨by decide, ?_⟩
  obtain ⟨g, -, -, -, hn, -, -⟩ := c8_blank_id_drop frameBlank "participant_id" []
    (Frame.mk ["participant_id", "age"] [["S01", "34"]]) 1 (by decide)
  exact hn

theorem bulkStep_eq (dir : List (String × Frame)) (schema : SchemaRegistry)
    (acc : List (String × Frame)) (dataset : String) :
    bulkStep dir schema acc dataset = acc ++ (bulkTry dir schema dataset).toList := by
  unfold bulkStep bulkTry
  cases fileNameFor schema dataset with
  | none => simp
  | some fn =>
    dsimp only
    cases alistGet? dir fn with
    | none => simp
    | some f =>
      dsimp only
      cases loadDatasetFrame dataset f schema with
      | error e => simp
      | ok df => simp

theorem foldl_bulkStep (dir : List (String × Frame)) (schema : SchemaRegistry)
    (l : List String) : ∀ acc : List (String × Frame),
    l.foldl (bulkStep dir schema) acc = acc ++ l.filterMap (bulkTry dir schema) := by
  induction l with
  | nil => intro acc; simp
  | cons d rest ih =>
    intro acc
    rw [List.foldl_cons, ih, bulkStep_eq]
    cases htry : bulkTry dir schema d with
    | none => simp [List.filterMap_cons, htry]
    | some p => simp [List.filterMap_cons, htry]

/-- C4: the bulk loader is total (it returns a mapping rather than
propagating standardization failures), equals the independent per-dataset
filterMap over the sorted dataset names, and its mapping contains exactly
the pairs of datasets whose configured file is present and whose
standardization succeeded — a failing dataset is excluded without
affecting any other dataset. -/
theorem c4_bulk_partial_success (dir : List (String × Frame)) (schema : SchemaRegistry) :
    bulkLoadDatasets dir schema =
      (sortStrings (dedupKeepFirst schema.dataset_names)).filterMap (bulkTry dir schema) ∧
    ∀ (d : String) (df : Frame),
      (d, df) ∈ bulkLoadDatasets dir schema ↔
        (d ∈ schema.dataset_names ∧ ∃ fn f, fileNameFor schema d = some fn ∧
          alistGet? dir fn = some f ∧ loadDatasetFrame d f schema = .ok df) := by
  have heq : bulkLoadDatasets dir schema =
      (sortStrings (dedupKeepFirst schema.dataset_names)).filterMap (bulkTry dir schema) := by
    unfold bulkLoadDatasets
    rw [foldl_bulkStep]
    simp
  refine ⟨heq, ?_⟩
  intro d df
  rw [heq, List.mem_filterMap]
  constructor
  · rintro ⟨d2, hd2, htry⟩
    unfold bulkTry at htry
    cases hfn : fileNameFor schema d2 with
    | none => rw [hfn] at htry; cases htry
    | some fn =>
      rw [hfn] at htry
      dsimp only at htry
      cases hgf : alistGet? dir fn with
      | none => rw [hgf] at htry; cases htry
      | some f =>
        rw [hgf] at htry
        dsimp only at htry
        cases hld : loadDatasetFrame d2 f schema with
        | error e => rw [hld] at htry; cases htry
        | ok df2 =>
          rw [hld] at htry
          dsimp only at htry
          injection htry with hp
          injection hp with hp1 hp2
          subst hp1
          subst hp2
          rw [mem_sortStrings, mem_dedupKeepFirst] at hd2
          exact ⟨hd2, fn, f, hfn, hgf, hld⟩
  · rintro ⟨hdm, fn, f, hfn, hgf, hld⟩
    refine ⟨d, ?_, ?_⟩
    · rw [mem_sortStrings, mem_dedupKeepFirst]
      exact hdm
    · unfold bulkTry
      rw [hfn]
      dsimp only
      rw [hgf]
      dsimp only
      rw [hld]

/-- C4 witness: with dataset A's file valid and dataset B's file violating
its required column, the bulk result contains exactly A, and A's
membership follows from the characterization. -/
theorem c4_witness :
    bulkLoadDatasets dirAB regAB = [("A", ⟨["participant_id", "age"], [["S01", "34"]]⟩)] ∧
    ("A", (⟨["participant_id", "age"], [["S01", "34"]]⟩ : Frame)) ∈
      bulkLoadDatasets dirAB regAB := by
  refine ⟨by decide, ?_⟩
  exact ((c4_bulk_partial_success dirAB regAB).2 "A"
      ⟨["participant_id", "age"], [["S01", "34"]]⟩).mpr
    ⟨by decide, "a.csv", ⟨["SubjID", "Age"], [["S01", "34"]]⟩, by decide, by decide, by decide⟩

end PIV
